import Mathlib

/-!
Verification of the mongoose-os VFS switch (`fw/src/mgos_vfs.h`).

The repository snapshot contains only the contract header `mgos_vfs.h`
(the ops table `mgos_vfs_fs_ops`, the instance record `mgos_vfs_fs`, and
the public facade declarations); the implementation translation unit
`mgos_vfs.c` is absent.  Per the header's documented contract and the
specification written from it, the switch state (type registry, mount
table, virtual descriptor table, instance arena) and each operation's
behaviour are modelled here; each such definition is marked
`Modelled from the spec:`.  Backend and device outcomes are passed in as
explicit parameters, and calls delegated to a backend or the device layer
are recorded in an event trace so that delegation claims are statable.
-/

/-- Mirror of `struct mgos_vfs_fs` (mgos_vfs.h lines 27-33): a live mounted
filesystem instance with its type name, reference count and attached device
handle.  The ops pointer and the backend-private `fs_data` are opaque to the
switch and are not part of the observable state. -/
structure FsInstance where
  ftype : String
  refs : Nat
  dev : Nat
  deriving Repr, DecidableEq

/-- Modelled from the spec: the whole switch state, absent from src/ (only
the header is present).  Registry of filesystem type names, an arena of
instances (indices are stable; a freed slot is `none`), the ordered mount
table binding paths to arena indices, the virtual descriptor table mapping
a vfd to an (arena index, backend-local fd) pair, and a device-handle
counter for the device layer. -/
structure VfsState where
  registry : List String
  instances : List (Option FsInstance)
  mounts : List (String × Nat)
  vfds : List (Option (Nat × Int))
  nextDev : Nat
  deriving Repr, DecidableEq

/-- The empty switch state at startup. -/
def initState : VfsState := ⟨[], [], [], [], 0⟩

/-- Events recording every call the switch delegates to a backend or to the
device layer, so that claims about which backend operations are invoked
can be stated. -/
inductive BEvent where
  | devOpen (dev : Nat)
  | devClose (dev : Nat)
  | bMount (inst : Nat)
  | bUnmount (inst : Nat) (ok : Bool)
  | bMkfs
  | bOpen (inst : Nat) (path : String)
  | bClose (inst : Nat) (fd : Int)
  | bStat (inst : Nat) (path : String)
  | bUnlink (inst : Nat) (path : String)
  | bRename (inst : Nat) (src dst : String)
  | bOpendir (inst : Nat) (path : String)
  | bGc (inst : Nat)
  deriving Repr, DecidableEq

/-- Look up a live instance in the arena. -/
def getInst (σ : VfsState) (i : Nat) : Option FsInstance :=
  (σ.instances.get? i).bind id

/-- Look up an open vfd's (instance, backend fd) pair. -/
def getVfd (σ : VfsState) (v : Nat) : Option (Nat × Int) :=
  (σ.vfds.get? v).bind id

/-- Index of the first free (`none`) slot of an arena, or its length when
every slot is occupied: the smallest non-negative integer not in use. -/
def firstFree {α : Type} : List (Option α) → Nat
  | [] => 0
  | none :: _ => 0
  | some _ :: t => firstFree t + 1

/-- Store a value in the first free slot of an arena (appending when full);
the slot used is `firstFree`. -/
def arenaAdd {α : Type} : List (Option α) → α → List (Option α)
  | [], x => [some x]
  | none :: t, x => some x :: t
  | some y :: t, x => some y :: arenaAdd t x

/-- Decrement the reference count of arena instance `i`. -/
def decRef (insts : List (Option FsInstance)) (i : Nat) : List (Option FsInstance) :=
  match insts.get? i with
  | some (some inst) => insts.set i (some { inst with refs := inst.refs - 1 })
  | _ => insts

/-- Increment the reference count of arena instance `i`. -/
def incRef (insts : List (Option FsInstance)) (i : Nat) : List (Option FsInstance) :=
  match insts.get? i with
  | some (some inst) => insts.set i (some { inst with refs := inst.refs + 1 })
  | _ => insts

/-- Number of open vfds routed to arena instance `i`. -/
def vfdCount (σ : VfsState) (i : Nat) : Nat :=
  (σ.vfds.filterMap id).countP (fun pr => pr.1 == i)

/-- String prefix test over the underlying character lists (structural, so
concrete instances reduce in the kernel). -/
def strPre (p q : String) : Bool :=
  p.toList.isPrefixOf q.toList

/-- `p` is a strict string prefix of `q`. -/
def strictPre (p q : String) : Bool :=
  strPre p q && !(p == q)

/-- Mount path validity (mgos_vfs.h lines 112-119 and the spec's
`^/[^/]+$`): starts with `/` and has exactly one non-empty component. -/
def validMountPath (p : String) : Bool :=
  match p.toList with
  | '/' :: c :: rest => (c :: rest).all (fun ch => ch ≠ '/')
  | _ => false

/-- Two mount paths conflict when they are equal or one is a string prefix
of the other (the spec's flat-namespace check at mount time). -/
def pathConflict (p q : String) : Bool :=
  strPre p q || strPre q p

/-- The flat-namespace invariant as a boolean over the mount table:
no entry's path conflicts with a later entry's path. -/
def noConflicts : List (String × Nat) → Bool
  | [] => true
  | e :: t => t.all (fun f => !(pathConflict e.1 f.1)) && noConflicts t

/-- Every mount table entry points at a live arena instance. -/
def mountsLive (σ : VfsState) : Bool :=
  σ.mounts.all (fun e => (getInst σ e.2).isSome)

/-- The refcount discipline of the spec: a live instance's count is one
(the mount table's own hold) plus the number of open vfds routed to it. -/
def refcountOk (σ : VfsState) : Bool :=
  (List.range σ.instances.length).all (fun i =>
    match getInst σ i with
    | none => true
    | some inst => inst.refs == 1 + vfdCount σ i)

/-- Well-formedness of a switch state: the conjunction of the structural
invariants that every reachable state satisfies. -/
def wf (σ : VfsState) : Bool :=
  mountsLive σ && refcountOk σ && noConflicts σ.mounts

/-- Split a path into its `/`-separated segments (structural recursion on
the character list, so that concrete evaluations reduce in the kernel). -/
def splitSlash (p : String) : List String :=
  p.toList.foldr
    (fun c acc =>
      match acc with
      | [] => [String.mk [c]]
      | s :: rest =>
        if c = '/' then "" :: s :: rest
        else String.mk (c :: s.toList) :: rest)
    [""]

/-- Modelled from the spec: the lexical core of `mgos_realpath` (declared at
mgos_vfs.h line 151, body absent from src/), over a path's `/`-separated
segments: drop empty and `.` segments, make `..` pop the last kept segment,
clamping at root when there is nothing left to pop. -/
def canonStep (st : List String) (c : String) : List String :=
  if c = "" || c = "." then st
  else if c = ".." then st.dropLast
  else st ++ [c]

/-- Fold `canonStep` over the segments, starting from the root. -/
def canonStack (comps : List String) : List String :=
  comps.foldl canonStep []

/-- Modelled from the spec: `mgos_realpath` (mgos_vfs.h line 151, body
absent from src/) — purely lexical cleanup, collapsing `.`, `..` and
redundant separators and clamping above-root paths at the root. -/
def mgos_realpath (p : String) : String :=
  "/" ++ String.intercalate "/" (canonStack (splitSlash p))

example : mgos_realpath "/mnt/./x/../y" = "/mnt/y" := by decide
example : mgos_realpath "/../x" = "/x" := by decide
example : mgos_realpath "/a//b/" = "/a/b" := by decide
example : mgos_realpath "/../../.." = "/" := by decide

/-- Modelled from the spec: path resolution, used by every call that takes a
path.  The path is canonicalized first, its leading `/component` is looked
up directly among the mount entries, and on a match the remainder after
stripping the mount path — defaulting to `"/"` when empty — is returned as
the backend-relative path.  No match yields `none` (a "no such path"
condition). -/
def resolveMount (σ : VfsState) (p : String) : Option (Nat × String) :=
  match canonStack (splitSlash p) with
  | [] => none
  | c :: rest =>
    match σ.mounts.find? (fun e => e.1 == "/" ++ c) with
    | none => none
    | some e => some (e.2, "/" ++ String.intercalate "/" rest)

/-- `mgos_vfs_fs_register_type` (mgos_vfs.h line 99).  Modelled from the
spec: fails when the name is already registered, otherwise records it.
The ops table itself is carried by the per-call backend outcome
parameters, so only the name is stored. -/
def mgos_vfs_fs_register_type (σ : VfsState) (t : String) : Bool × VfsState :=
  if σ.registry.contains t then (false, σ)
  else (true, { σ with registry := σ.registry ++ [t] })

/-- `mgos_vfs_mkfs` (mgos_vfs.h line 109).  Modelled from the spec: open a
device, look up the type, invoke the backend `mkfs`, and always close the
device afterwards — never leaving a mounted instance behind.  `devOk` and
`mkfsOk` are the device layer's and backend's outcomes. -/
def mgos_vfs_mkfs (σ : VfsState) (fs_type : String) (devOk mkfsOk : Bool) :
    Bool × VfsState × List BEvent :=
  if !devOk then (false, σ, [])
  else if !(σ.registry.contains fs_type) then (false, σ, [BEvent.devOpen σ.nextDev, BEvent.devClose σ.nextDev])
  else (mkfsOk, σ, [BEvent.devOpen σ.nextDev, BEvent.bMkfs, BEvent.devClose σ.nextDev])

/-- `mgos_vfs_mount` (mgos_vfs.h lines 112-123).  Modelled from the spec:
validate the path, reject a duplicate or prefix-conflicting path, open the
device (`devOk` is the device layer's outcome), look up the type, invoke
the backend `mount` (`mountOk`); on backend failure close the device and
leave no trace; on success insert the instance (refcount 1, the table's
own hold) and the mount entry. -/
def mgos_vfs_mount (σ : VfsState) (path fs_type : String) (devOk mountOk : Bool) :
    Bool × VfsState × List BEvent :=
  if !(validMountPath path) then (false, σ, [])
  else if σ.mounts.any (fun e => pathConflict path e.1) then (false, σ, [])
  else if !devOk then (false, σ, [])
  else if !(σ.registry.contains fs_type) then
    (false, σ, [BEvent.devOpen σ.nextDev, BEvent.devClose σ.nextDev])
  else
    let d := σ.nextDev
    let i := firstFree σ.instances
    if !mountOk then
      (false, σ, [BEvent.devOpen d, BEvent.bMount i, BEvent.devClose d])
    else
      (true,
       { σ with
         instances := arenaAdd σ.instances ⟨fs_type, 1, d⟩,
         mounts := σ.mounts ++ [(path, i)],
         nextDev := d + 1 },
       [BEvent.devOpen d, BEvent.bMount i])

/-- `mgos_vfs_umount` (mgos_vfs.h lines 125-129).  Modelled from the spec:
fails when no entry exists at `path` or when the instance's reference
count exceeds the table's own hold (open files exist); on success the
backend `unmount` is invoked, the device is released and the entry is
removed.  `unmountOk` is the backend's outcome, recorded in the trace. -/
def mgos_vfs_umount (σ : VfsState) (path : String) (unmountOk : Bool) :
    Bool × VfsState × List BEvent :=
  match σ.mounts.find? (fun e => e.1 == path) with
  | none => (false, σ, [])
  | some e =>
    match getInst σ e.2 with
    | none => (false, σ, [])
    | some inst =>
      if inst.refs > 1 then (false, σ, [])
      else
        (true,
         { σ with
           mounts := σ.mounts.filter (fun f => !(f.1 == path)),
           instances := σ.instances.set e.2 none },
         [BEvent.bUnmount e.2 unmountOk, BEvent.devClose inst.dev])

/-- `mgos_vfs_umount_all` (mgos_vfs.h lines 131-135).  Modelled from the
spec: unconditional teardown of every entry regardless of outstanding
references; each entry's backend `unmount` is invoked and its device
released even when another entry's backend fails (`badUnmounts` lists the
instances whose backend unmount fails — the outcome never stops the
teardown). -/
def mgos_vfs_umount_all (σ : VfsState) (badUnmounts : List Nat) :
    VfsState × List BEvent :=
  ({ σ with mounts := [], instances := σ.instances.map (fun _ => none) },
   σ.mounts.foldr
     (fun e acc =>
       BEvent.bUnmount e.2 (!(badUnmounts.contains e.2)) ::
       (match getInst σ e.2 with
        | some inst => [BEvent.devClose inst.dev]
        | none => []) ++ acc)
     [])

/-- `mgos_vfs_gc` (mgos_vfs.h line 140).  Modelled from the spec: resolve
the path to its instance and delegate; fail when no mount exists there. -/
def mgos_vfs_gc (σ : VfsState) (path : String) (gcOk : Bool) :
    Bool × VfsState × List BEvent :=
  match resolveMount σ path with
  | none => (false, σ, [])
  | some pr => (gcOk, σ, [BEvent.bGc pr.1])

/-- `mgos_vfs_open` (mgos_vfs.h line 154).  Modelled from the spec: resolve
the path (failing with "no such path" when no mount matches), delegate the
remainder to the backend `open` (`backendFd` is its outcome, `none` for
failure, propagated unchanged); on success allocate the smallest
non-negative vfd not in use, record the (instance, backend fd) pair and
increment the instance's reference count. -/
def mgos_vfs_open (σ : VfsState) (path : String) (backendFd : Option Int) :
    Option Nat × VfsState × List BEvent :=
  match resolveMount σ path with
  | none => (none, σ, [])
  | some (i, rem) =>
    match getInst σ i with
    | none => (none, σ, [])
    | some _ =>
      match backendFd with
      | none => (none, σ, [BEvent.bOpen i rem])
      | some fd =>
        (some (firstFree σ.vfds),
         { σ with
           vfds := arenaAdd σ.vfds (i, fd),
           instances := incRef σ.instances i },
         [BEvent.bOpen i rem])

/-- `mgos_vfs_close` (mgos_vfs.h line 155).  Modelled from the spec: fail
when the vfd is unknown; otherwise delegate to the backend `close`
(`backendOk` is its outcome) and, regardless of the backend result,
release the vfd slot and decrement the instance's reference count. -/
def mgos_vfs_close (σ : VfsState) (v : Nat) (backendOk : Bool) :
    Bool × VfsState × List BEvent :=
  match getVfd σ v with
  | none => (false, σ, [])
  | some (i, fd) =>
    (backendOk,
     { σ with
       vfds := σ.vfds.set v none,
       instances := decRef σ.instances i },
     [BEvent.bClose i fd])

/-- `mgos_vfs_stat` (mgos_vfs.h line 158).  Modelled from the spec: resolve
through the mount table exactly as `open` does and delegate the remainder;
fail with "no such path" when no mount matches. -/
def mgos_vfs_stat (σ : VfsState) (path : String) (statOk : Bool) :
    Bool × VfsState × List BEvent :=
  match resolveMount σ path with
  | none => (false, σ, [])
  | some (i, rem) => (statOk, σ, [BEvent.bStat i rem])

/-- `mgos_vfs_unlink` (mgos_vfs.h line 161).  Modelled from the spec: same
resolution as `open`, then delegate. -/
def mgos_vfs_unlink (σ : VfsState) (path : String) (unlinkOk : Bool) :
    Bool × VfsState × List BEvent :=
  match resolveMount σ path with
  | none => (false, σ, [])
  | some (i, rem) => (unlinkOk, σ, [BEvent.bUnlink i rem])

/-- `mgos_vfs_opendir` (mgos_vfs.h line 164).  Modelled from the spec: same
resolution as `open`, then delegate. -/
def mgos_vfs_opendir (σ : VfsState) (path : String) (opendirOk : Bool) :
    Bool × VfsState × List BEvent :=
  match resolveMount σ path with
  | none => (false, σ, [])
  | some (i, rem) => (opendirOk, σ, [BEvent.bOpendir i rem])

/-- `mgos_vfs_rename` (mgos_vfs.h line 162).  Modelled from the spec: both
paths must resolve to the same mount instance; a cross-filesystem rename
is rejected with a "no such path"-class failure and no backend is invoked;
otherwise the backend `rename` is delegated the two remainders. -/
def mgos_vfs_rename (σ : VfsState) (src dst : String) (renameOk : Bool) :
    Bool × VfsState × List BEvent :=
  match resolveMount σ src, resolveMount σ dst with
  | some (i, rs), some (j, rd) =>
    if i == j then (renameOk, σ, [BEvent.bRename i rs rd])
    else (false, σ, [])
  | _, _ => (false, σ, [])

/-- Concrete scenario state: one registered type. -/
def regState : VfsState := (mgos_vfs_fs_register_type initState "spiffs").2

/-- Concrete scenario state: `spiffs` mounted at `/mnt`. -/
def mntState : VfsState := (mgos_vfs_mount regState "/mnt" "spiffs" true true).2.1

/-- Concrete scenario state: one file opened on `/mnt` (vfd 0). -/
def openState : VfsState := (mgos_vfs_open mntState "/mnt/f" (some 5)).2.1

/-- Concrete scenario state: the file closed again. -/
def closedState : VfsState := (mgos_vfs_close openState 0 true).2.1

example : (mgos_vfs_mount regState "/mnt" "spiffs" true true).1 = true := by decide
example : mntState.mounts = [("/mnt", 0)] := by decide
example : (mgos_vfs_open mntState "/mnt/f" (some 5)).1 = some 0 := by decide
example : (mgos_vfs_umount openState "/mnt" true).1 = false := by decide
example : (mgos_vfs_umount closedState "/mnt" true).1 = true := by decide
example : wf openState = true := by decide
example : wf closedState = true := by decide
example : resolveMount mntState "/mnt/f" = some (0, "/f") := by decide
example : resolveMount mntState "/mnt" = some (0, "/") := by decide
example : resolveMount mntState "/other/f" = none := by decide

/-- Clean segments survive `dropLast`. -/
theorem all_dropLast {α : Type} (p : α → Bool) (l : List α) (h : l.all p = true) :
    l.dropLast.all p = true := by
  rw [List.all_eq_true] at h ⊢
  exact fun x hx => h x ((List.dropLast_sublist l).subset hx)

/-- One canonicalization step keeps the kept segments clean. -/
theorem canonStep_clean (acc : List String) (c : String)
    (h : acc.all (fun s => !(s == "" || s == "." || s == "..")) = true) :
    (canonStep acc c).all (fun s => !(s == "" || s == "." || s == "..")) = true := by
  unfold canonStep
  split
  · exact h
  · split
    · exact all_dropLast _ _ h
    · rw [List.all_append]
      simp_all

/-- Folding `canonStep` keeps every kept segment clean: no empty, `.` or
`..` segment remains. -/
theorem foldl_canonStep_clean (comps : List String) (acc : List String)
    (h : acc.all (fun c => !(c == "" || c == "." || c == "..")) = true) :
    (comps.foldl canonStep acc).all
      (fun c => !(c == "" || c == "." || c == "..")) = true := by
  induction comps generalizing acc with
  | nil => exact h
  | cons c t ih => exact ih _ (canonStep_clean _ _ h)

/-- The output of canonicalization is clean. -/
theorem canonStack_clean (comps : List String) :
    (canonStack comps).all (fun c => !(c == "" || c == "." || c == "..")) = true :=
  foldl_canonStep_clean comps [] rfl

/-- C8: `mgos_realpath` is a purely lexical cleanup: it collapses `.` and
`..` segments and redundant separators, clamps an above-root path at the
root, and in particular maps `/mnt/./x/../y` to `/mnt/y` and `/../x` to
`/x`; no `.`, `..` or empty segment survives canonicalization of any
path. -/
theorem C8_realpath_lexical :
    mgos_realpath "/mnt/./x/../y" = "/mnt/y" ∧
    mgos_realpath "/../x" = "/x" ∧
    mgos_realpath "/a//b///c" = "/a/b/c" ∧
    mgos_realpath "/mnt/../../.." = "/" ∧
    ∀ p : String, (canonStack (splitSlash p)).all
      (fun c => !(c == "" || c == "." || c == "..")) = true :=
  ⟨by decide, by decide, by decide, by decide,
   fun p => canonStack_clean (splitSlash p)⟩

/-- The operation names of `struct mgos_vfs_fs_ops` that are compiled in
(mgos_vfs.h lines 60-96; the fields under the disabled `#if 0` block at
lines 89-95 are not part of the contract). -/
def mgos_vfs_fs_ops_fields : List String :=
  ["mkfs", "mount", "umount", "get_space_total", "get_space_used",
   "get_space_free", "gc", "open", "close", "read", "write", "stat",
   "fstat", "lseek", "unlink", "rename", "opendir", "readdir", "closedir"]

/-- The public facade functions declared by the header (mgos_vfs.h lines
98-167). -/
def mgos_vfs_facade_fns : List String :=
  ["mgos_vfs_fs_register_type", "mgos_vfs_mkfs", "mgos_vfs_mount",
   "mgos_vfs_umount", "mgos_vfs_umount_all", "mgos_vfs_gc",
   "mgos_vfs_hal_mount", "mgos_realpath", "mgos_vfs_open", "mgos_vfs_close",
   "mgos_vfs_read", "mgos_vfs_write", "mgos_vfs_stat", "mgos_vfs_fstat",
   "mgos_vfs_lseek", "mgos_vfs_unlink", "mgos_vfs_rename",
   "mgos_vfs_opendir", "mgos_vfs_readdir", "mgos_vfs_closedir"]

/-- C10: neither the dispatch contract nor the public facade contains a
link, mkdir, rmdir, telldir or seekdir operation — these libc operations
are excluded from the supported surface, so no call through the switch can
create a directory or a link or seek within a directory stream. -/
theorem C10_no_link_or_dir_mutation_ops :
    (["link", "mkdir", "rmdir", "telldir", "seekdir"].all
      (fun op => !(mgos_vfs_fs_ops_fields.contains op))) = true ∧
    (["link", "mkdir", "rmdir", "telldir", "seekdir"].all
      (fun op => !(mgos_vfs_facade_fns.contains ("mgos_vfs_" ++ op)))) = true := by
  constructor <;> decide

/-- Concrete scenario state: two registered types. -/
def reg2State : VfsState := (mgos_vfs_fs_register_type regState "fatfs").2

/-- Concrete scenario state: `spiffs` mounted at `/mnt` and `fatfs`
mounted at `/other`. -/
def twoMntState : VfsState :=
  (mgos_vfs_mount (mgos_vfs_mount reg2State "/mnt" "spiffs" true true).2.1
    "/other" "fatfs" true true).2.1

example : twoMntState.mounts = [("/mnt", 0), ("/other", 1)] := by decide
example : wf twoMntState = true := by decide

/-- C7: `mgos_vfs_rename` delegates to a backend only when both paths
resolve to the same mount instance; when they resolve to two distinct
mounts it fails — with no backend rename invoked and no state change —
exactly as a "no such path"-class failure does. -/
theorem C7_rename_same_mount_only (σ : VfsState) (src dst : String) (ok : Bool)
    (i j : Nat) (rs rd : String)
    (hs : resolveMount σ src = some (i, rs))
    (hd : resolveMount σ dst = some (j, rd)) :
    (i ≠ j → mgos_vfs_rename σ src dst ok = (false, σ, [])) ∧
    (i = j → mgos_vfs_rename σ src dst ok = (ok, σ, [BEvent.bRename i rs rd])) := by
  constructor
  · intro hne
    unfold mgos_vfs_rename
    rw [hs, hd]
    simp [hne]
  · intro heq
    subst heq
    unfold mgos_vfs_rename
    rw [hs, hd]
    simp

/-- Witness for C7 at a concrete two-mount state: renaming `/mnt/a` to
`/other/b` across two distinct mounts fails with no backend invocation,
while a same-mount rename delegates. -/
theorem C7_rename_same_mount_only_witness :
    mgos_vfs_rename twoMntState "/mnt/a" "/other/b" true = (false, twoMntState, []) ∧
    mgos_vfs_rename twoMntState "/mnt/a" "/mnt/b" true =
      (true, twoMntState, [BEvent.bRename 0 "/a" "/b"]) :=
  ⟨(C7_rename_same_mount_only twoMntState "/mnt/a" "/other/b" true 0 1 "/a" "/b"
      (by decide) (by decide)).1 (by decide),
   (C7_rename_same_mount_only twoMntState "/mnt/a" "/mnt/b" true 0 0 "/a" "/b"
      (by decide) (by decide)).2 rfl⟩

/-- C6: every path-taking operation resolves its path through
`resolveMount`: on no match the operation fails with a "no such path"
condition (false result, no state change, no backend call); on a match the
remainder after stripping the mount path is delegated to the matched
instance's backend; and a successful resolution is exactly a direct lookup
of the leading `/component` of the canonicalized path among the mount
entries, the remainder defaulting to `"/"` when nothing is left. -/
theorem C6_path_resolution (σ : VfsState) (p : String) (ok : Bool)
    (fd : Option Int) :
    (resolveMount σ p = none →
      mgos_vfs_open σ p fd = (none, σ, []) ∧
      mgos_vfs_stat σ p ok = (false, σ, []) ∧
      mgos_vfs_unlink σ p ok = (false, σ, []) ∧
      mgos_vfs_opendir σ p ok = (false, σ, []) ∧
      mgos_vfs_gc σ p ok = (false, σ, []) ∧
      (∀ q, mgos_vfs_rename σ p q ok = (false, σ, []) ∧
            mgos_vfs_rename σ q p ok = (false, σ, []))) ∧
    (∀ i rem, resolveMount σ p = some (i, rem) →
      mgos_vfs_stat σ p ok = (ok, σ, [BEvent.bStat i rem]) ∧
      mgos_vfs_unlink σ p ok = (ok, σ, [BEvent.bUnlink i rem]) ∧
      mgos_vfs_opendir σ p ok = (ok, σ, [BEvent.bOpendir i rem]) ∧
      mgos_vfs_gc σ p ok = (ok, σ, [BEvent.bGc i])) ∧
    (∀ i rem, resolveMount σ p = some (i, rem) →
      ∃ c rest, canonStack (splitSlash p) = c :: rest ∧
        σ.mounts.find? (fun e => e.1 == "/" ++ c) = some ("/" ++ c, i) ∧
        rem = "/" ++ String.intercalate "/" rest ∧
        (rest = [] → rem = "/")) := by
  refine ⟨?_, ?_, ?_⟩
  · intro h
    refine ⟨?_, ?_, ?_, ?_, ?_, ?_⟩
    · unfold mgos_vfs_open; rw [h]
    · unfold mgos_vfs_stat; rw [h]
    · unfold mgos_vfs_unlink; rw [h]
    · unfold mgos_vfs_opendir; rw [h]
    · unfold mgos_vfs_gc; rw [h]
    · intro q
      constructor
      · unfold mgos_vfs_rename
        rw [h]
      · unfold mgos_vfs_rename
        rw [h]
        rcases resolveMount σ q with _ | ⟨j, rd⟩ <;> rfl
  · intro i rem h
    refine ⟨?_, ?_, ?_, ?_⟩
    · unfold mgos_vfs_stat; rw [h]
    · unfold mgos_vfs_unlink; rw [h]
    · unfold mgos_vfs_opendir; rw [h]
    · unfold mgos_vfs_gc; rw [h]
  · intro i rem h
    unfold resolveMount at h
    split at h
    · exact absurd h (by simp)
    · next c rest hc =>
      split at h
      · exact absurd h (by simp)
      · next e hf =>
        have he : e.2 = i ∧ "/" ++ String.intercalate "/" rest = rem := by
          simpa using h
        have hpe := List.find?_some hf
        have he1 : e.1 = "/" ++ c := by simpa using hpe
        have hep : e = ("/" ++ c, i) := by
          rw [Prod.ext_iff]
          exact ⟨he1, he.1⟩
        refine ⟨c, rest, hc, ?_, he.2.symm, ?_⟩
        · rw [← hep]
          exact hf
        · intro hrest
          subst hrest
          rw [← he.2]
          decide

/-- Witness for C6 at a concrete state: `/other/f` matches no mount and
`stat` fails; `/mnt/f` resolves to instance 0 with remainder `/f` and is
delegated. -/
theorem C6_path_resolution_witness :
    mgos_vfs_stat mntState "/other/f" true = (false, mntState, []) ∧
    mgos_vfs_stat mntState "/mnt/f" true = (true, mntState, [BEvent.bStat 0 "/f"]) :=
  ⟨((C6_path_resolution mntState "/other/f" true none).1 (by decide)).2.1,
   ((C6_path_resolution mntState "/mnt/f" true none).2.1 0 "/f" (by decide)).1⟩

/-- A bind-through-`id` lookup that succeeds pins the underlying slot. -/
theorem bindId_eq_some {α : Type} {l : List (Option α)} {n : Nat} {a : α}
    (h : (l.get? n).bind id = some a) : l.get? n = some (some a) := by
  cases hg : l.get? n with
  | none => rw [hg] at h; simp at h
  | some o =>
    rw [hg] at h
    simp only [Option.some_bind, id] at h
    rw [h]

/-- A successful `get?` bounds the index. -/
theorem lt_of_get?_eq_some {α : Type} {l : List α} {n : Nat} {a : α}
    (h : l.get? n = some a) : n < l.length := by
  by_contra hn
  rw [List.get?_eq_none.mpr (Nat.le_of_not_lt hn)] at h
  simp at h

/-- A slot known to be free bounds the first-free index. -/
theorem firstFree_le {α : Type} (l : List (Option α)) (v : Nat)
    (h : l.get? v = some none) : firstFree l ≤ v := by
  induction l generalizing v with
  | nil => simp at h
  | cons o t ih =>
    cases o with
    | none => exact Nat.zero_le v
    | some a =>
      cases v with
      | zero => simp at h
      | succ w =>
        show firstFree t + 1 ≤ w + 1
        exact Nat.succ_le_succ (ih w (by simpa using h))

/-- C3: `mgos_vfs_close` fails when the vfd is unknown; on an open vfd it
always delegates to the backend `close` and — whatever the backend result —
releases the vfd slot (making its value available for reuse by the
allocator) and decrements the owning instance's reference count, so a
backend-level close failure never leaks the vfd. -/
theorem C3_close_always_frees (σ : VfsState) (v : Nat) (b : Bool) :
    (getVfd σ v = none → mgos_vfs_close σ v b = (false, σ, [])) ∧
    (∀ i fd inst, getVfd σ v = some (i, fd) → getInst σ i = some inst →
      (mgos_vfs_close σ v b).1 = b ∧
      (mgos_vfs_close σ v b).2.2 = [BEvent.bClose i fd] ∧
      getVfd (mgos_vfs_close σ v b).2.1 v = none ∧
      getInst (mgos_vfs_close σ v b).2.1 i =
        some { inst with refs := inst.refs - 1 } ∧
      firstFree (mgos_vfs_close σ v b).2.1.vfds ≤ v) := by
  constructor
  · intro h
    unfold mgos_vfs_close
    rw [h]
  · intro i fd inst hv hi
    have hv' : σ.vfds.get? v = some (some (i, fd)) := bindId_eq_some hv
    have hi' : σ.instances.get? i = some (some inst) := bindId_eq_some hi
    have hvlt : v < σ.vfds.length := lt_of_get?_eq_some hv'
    have hilt : i < σ.instances.length := lt_of_get?_eq_some hi'
    unfold mgos_vfs_close
    rw [hv]
    refine ⟨rfl, rfl, ?_, ?_, ?_⟩
    · show ((σ.vfds.set v none).get? v).bind id = none
      rw [List.get?_set_eq_of_lt none hvlt]
      rfl
    · show ((decRef σ.instances i).get? i).bind id = _
      unfold decRef
      rw [hi', List.get?_set_eq_of_lt _ hilt]
      rfl
    · exact firstFree_le _ _ (List.get?_set_eq_of_lt none hvlt)

/-- Witness for C3 at a concrete state: closing open vfd 0 with a failing
backend close still frees the slot and drops the refcount; closing an
unknown vfd fails. -/
theorem C3_close_always_frees_witness :
    mgos_vfs_close openState 7 false = (false, openState, []) ∧
    getVfd (mgos_vfs_close openState 0 false).2.1 0 = none ∧
    getInst (mgos_vfs_close openState 0 false).2.1 0 =
      some { ftype := "spiffs", refs := 1, dev := 0 } :=
  ⟨(C3_close_always_frees openState 7 false).1 (by decide),
   ((C3_close_always_frees openState 0 false).2 0 5
      ⟨"spiffs", 2, 0⟩ (by decide) (by decide)).2.2.1,
   ((C3_close_always_frees openState 0 false).2 0 5
      ⟨"spiffs", 2, 0⟩ (by decide) (by decide)).2.2.2.1⟩

/-- The first-free slot of an arena is indeed free (or out of range). -/
theorem get_firstFree {α : Type} (l : List (Option α)) :
    (l.get? (firstFree l)).bind id = none := by
  induction l with
  | nil => rfl
  | cons o t ih =>
    cases o with
    | none => rfl
    | some a =>
      show (t.get? (firstFree t)).bind id = none
      exact ih

/-- Every slot below the first-free index is occupied. -/
theorem get_lt_firstFree {α : Type} (l : List (Option α)) (w : Nat)
    (h : w < firstFree l) : (l.get? w).bind id ≠ none := by
  induction l generalizing w with
  | nil => simp [firstFree] at h
  | cons o t ih =>
    cases o with
    | none => simp [firstFree] at h
    | some a =>
      cases w with
      | zero => simp
      | succ u =>
        show (t.get? u).bind id ≠ none
        exact ih u (Nat.lt_of_succ_lt_succ h)

/-- Storing into an arena fills exactly the first-free slot. -/
theorem arenaAdd_get_self {α : Type} (l : List (Option α)) (x : α) :
    (arenaAdd l x).get? (firstFree l) = some (some x) := by
  induction l with
  | nil => rfl
  | cons o t ih =>
    cases o with
    | none => rfl
    | some a =>
      show (arenaAdd t x).get? (firstFree t) = some (some x)
      exact ih

/-- Storing into an arena leaves every other slot unchanged. -/
theorem arenaAdd_get_ne {α : Type} (l : List (Option α)) (x : α) (w : Nat)
    (h : w ≠ firstFree l) : (arenaAdd l x).get? w = l.get? w := by
  induction l generalizing w with
  | nil =>
    cases w with
    | zero => exact absurd rfl h
    | succ u => rfl
  | cons o t ih =>
    cases o with
    | none =>
      cases w with
      | zero => exact absurd rfl h
      | succ u => rfl
    | some a =>
      cases w with
      | zero => rfl
      | succ u =>
        show (arenaAdd t x).get? u = t.get? u
        exact ih u (fun he => h (by show u + 1 = firstFree t + 1; rw [he]))

/-- C4: a successful `mgos_vfs_open` returns the smallest non-negative
integer not in use as a vfd (a value that was free beforehand, so open
vfds stay unique and a value is reused only after being closed), records
the (instance, backend fd) pair under it, increments the owning instance's
reference count, and leaves every other vfd slot untouched. -/
theorem C4_open_allocates_smallest_vfd (σ : VfsState) (p : String) (fd : Int)
    (i : Nat) (rem : String) (inst : FsInstance)
    (hres : resolveMount σ p = some (i, rem))
    (hinst : getInst σ i = some inst) :
    ∀ v σ' evs, mgos_vfs_open σ p (some fd) = (some v, σ', evs) →
      v = firstFree σ.vfds ∧
      getVfd σ v = none ∧
      (∀ w, w < v → getVfd σ w ≠ none) ∧
      getVfd σ' v = some (i, fd) ∧
      getInst σ' i = some { inst with refs := inst.refs + 1 } ∧
      (∀ w, w ≠ v → getVfd σ' w = getVfd σ w) := by
  intro v σ' evs hop
  have hi' : σ.instances.get? i = some (some inst) := bindId_eq_some hinst
  have hilt : i < σ.instances.length := lt_of_get?_eq_some hi'
  unfold mgos_vfs_open at hop
  rw [hres] at hop
  simp only [hinst, Prod.mk.injEq, Option.some.injEq] at hop
  obtain ⟨hv, hσ, -⟩ := hop
  subst hv
  subst hσ
  refine ⟨rfl, get_firstFree _, ?_, ?_, ?_, ?_⟩
  · intro w hw
    exact get_lt_firstFree _ w hw
  · show ((arenaAdd σ.vfds (i, fd)).get? (firstFree σ.vfds)).bind id = _
    rw [arenaAdd_get_self]
    rfl
  · show ((incRef σ.instances i).get? i).bind id = _
    unfold incRef
    rw [hi', List.get?_set_eq_of_lt _ hilt]
    rfl
  · intro w hw
    show ((arenaAdd σ.vfds (i, fd)).get? w).bind id = (σ.vfds.get? w).bind id
    rw [arenaAdd_get_ne _ _ _ hw]

/-- Witness for C4 at a concrete state: opening a second file while vfd 0
is open allocates vfd 1 (the smallest free value), records the pair and
bumps the refcount to 3. -/
theorem C4_open_allocates_smallest_vfd_witness :
    (mgos_vfs_open openState "/mnt/g" (some 9)).1 = some 1 ∧
    getVfd (mgos_vfs_open openState "/mnt/g" (some 9)).2.1 1 = some (0, 9) ∧
    getInst (mgos_vfs_open openState "/mnt/g" (some 9)).2.1 0 =
      some { ftype := "spiffs", refs := 3, dev := 0 } :=
  ⟨by decide,
   ((C4_open_allocates_smallest_vfd openState "/mnt/g" 9 0 "/g" ⟨"spiffs", 2, 0⟩
      (by decide) (by decide)) 1 (mgos_vfs_open openState "/mnt/g" (some 9)).2.1
      [BEvent.bOpen 0 "/g"] (by decide)).2.2.2.1,
   ((C4_open_allocates_smallest_vfd openState "/mnt/g" 9 0 "/g" ⟨"spiffs", 2, 0⟩
      (by decide) (by decide)) 1 (mgos_vfs_open openState "/mnt/g" (some 9)).2.1
      [BEvent.bOpen 0 "/g"] (by decide)).2.2.2.2.1⟩

/-- Reflexivity of the list prefix test. -/
theorem isPrefixOf_self {α : Type} [DecidableEq α] (l : List α) :
    l.isPrefixOf l = true := by
  induction l with
  | nil => rfl
  | cons a t ih => simp [List.isPrefixOf, ih]

/-- Every path is a (non-strict) prefix of itself. -/
theorem strPre_refl (p : String) : strPre p p = true :=
  isPrefixOf_self p.toList

/-- Every device opened in a trace is closed again in that trace. -/
def devBalanced (evs : List BEvent) : Bool :=
  evs.all (fun e =>
    match e with
    | BEvent.devOpen d => evs.contains (BEvent.devClose d)
    | _ => true)

/-- C5: every failing `mgos_vfs_mount` — malformed path, duplicate or
prefix-conflicting path, device-open failure, unknown filesystem type, or
backend mount failure — leaves the switch state unchanged and closes any
device it opened during the attempt; in particular a second mount at an
already-mounted path fails with no side effects at all. -/
theorem C5_mount_failure_no_partial_state (σ : VfsState) (p ft : String)
    (dOk mOk : Bool) :
    ((mgos_vfs_mount σ p ft dOk mOk).1 = false →
      (mgos_vfs_mount σ p ft dOk mOk).2.1 = σ ∧
      devBalanced (mgos_vfs_mount σ p ft dOk mOk).2.2 = true) ∧
    (σ.mounts.any (fun e => e.1 == p) = true →
      mgos_vfs_mount σ p ft dOk mOk = (false, σ, [])) := by
  constructor
  · intro hr
    unfold mgos_vfs_mount at hr ⊢
    cases h1 : validMountPath p with
    | false => simp [h1, devBalanced]
    | true =>
      cases h2 : σ.mounts.any (fun e => pathConflict p e.1) with
      | true => simp [h1, h2, devBalanced]
      | false =>
        cases dOk with
        | false => simp [h1, h2, devBalanced]
        | true =>
          cases h4 : σ.registry.contains ft with
          | false => simp [h1, h2, h4, devBalanced]
          | true =>
            cases mOk with
            | false => simp [h1, h2, h4, devBalanced]
            | true =>
              have h4m : ft ∈ σ.registry := by simpa using h4
              simp [h1, h2, h4m] at hr
  · intro hany
    rw [List.any_eq_true] at hany
    obtain ⟨e, he, heq⟩ := hany
    have hconf : σ.mounts.any (fun f => pathConflict p f.1) = true := by
      rw [List.any_eq_true]
      refine ⟨e, he, ?_⟩
      have hep : e.1 = p := by simpa using heq
      unfold pathConflict
      rw [hep]
      simp [strPre_refl]
    unfold mgos_vfs_mount
    cases h1 : validMountPath p with
    | false => simp [h1]
    | true => simp [h1, hconf]

/-- Witness for C5 at concrete states: remounting `/mnt` fails with no
side effects, and a backend mount failure (device opened, backend says no)
leaves the state unchanged with the device closed again. -/
theorem C5_mount_failure_no_partial_state_witness :
    mgos_vfs_mount mntState "/mnt" "spiffs" true true = (false, mntState, []) ∧
    (mgos_vfs_mount regState "/mnt" "spiffs" true false).2.1 = regState ∧
    devBalanced (mgos_vfs_mount regState "/mnt" "spiffs" true false).2.2 = true :=
  ⟨(C5_mount_failure_no_partial_state mntState "/mnt" "spiffs" true true).2 (by decide),
   ((C5_mount_failure_no_partial_state regState "/mnt" "spiffs" true false).1 (by decide)).1,
   ((C5_mount_failure_no_partial_state regState "/mnt" "spiffs" true false).1 (by decide)).2⟩

/-- The refcount discipline, read off at one instance. -/
theorem refcountOk_at (σ : VfsState) (i : Nat) (inst : FsInstance)
    (h : refcountOk σ = true) (hi : getInst σ i = some inst) :
    inst.refs = 1 + vfdCount σ i := by
  unfold refcountOk at h
  rw [List.all_eq_true] at h
  have hilt : i < σ.instances.length := lt_of_get?_eq_some (bindId_eq_some hi)
  have hat := h i (List.mem_range.mpr hilt)
  rw [hi] at hat
  simpa using hat

/-- The state after a successful close, in explicit form. -/
theorem close_state (σ : VfsState) (v : Nat) (b : Bool) (i : Nat) (fd : Int)
    (hv : getVfd σ v = some (i, fd)) :
    (mgos_vfs_close σ v b).2.1 =
      { σ with vfds := σ.vfds.set v none, instances := decRef σ.instances i } := by
  unfold mgos_vfs_close
  rw [hv]

/-- C1: in a well-formed state with a mount at `p` routed to instance `i`,
`mgos_vfs_umount p` fails (no state change, no backend call) while any
open vfd routes to `i` — the refcount then exceeds the table's own hold —
and succeeds immediately after the last such vfd is closed; on success the
backend unmount is invoked, the device is released and the entry is
removed; and umount of a path with no entry always fails. -/
theorem C1_umount_blocked_by_open_files (σ : VfsState) (p : String) (i : Nat)
    (uOk b : Bool) (hwf : wf σ = true)
    (hm : σ.mounts.find? (fun e => e.1 == p) = some (p, i)) :
    (vfdCount σ i > 0 → mgos_vfs_umount σ p uOk = (false, σ, [])) ∧
    (∀ inst, getInst σ i = some inst → vfdCount σ i = 0 →
      mgos_vfs_umount σ p uOk =
        (true,
         { σ with
           mounts := σ.mounts.filter (fun f => !(f.1 == p)),
           instances := σ.instances.set i none },
         [BEvent.bUnmount i uOk, BEvent.devClose inst.dev])) ∧
    (∀ v fd, getVfd σ v = some (i, fd) → vfdCount σ i = 1 →
      (mgos_vfs_umount (mgos_vfs_close σ v b).2.1 p uOk).1 = true) ∧
    (∀ q, σ.mounts.find? (fun e => e.1 == q) = none →
      mgos_vfs_umount σ q uOk = (false, σ, [])) := by
  have hwf' := hwf
  unfold wf at hwf'
  rw [Bool.and_assoc, Bool.and_eq_true] at hwf'
  obtain ⟨hml, hrest⟩ := hwf'
  rw [Bool.and_eq_true] at hrest
  obtain ⟨hrc, -⟩ := hrest
  have hmem := List.mem_of_find?_eq_some hm
  have hlive : (getInst σ i).isSome = true := by
    unfold mountsLive at hml
    rw [List.all_eq_true] at hml
    exact hml (p, i) hmem
  obtain ⟨inst, hinst⟩ := Option.isSome_iff_exists.mp hlive
  have hi' : σ.instances.get? i = some (some inst) := bindId_eq_some hinst
  have hilt : i < σ.instances.length := lt_of_get?_eq_some hi'
  have hrefs : inst.refs = 1 + vfdCount σ i := refcountOk_at σ i inst hrc hinst
  refine ⟨?_, ?_, ?_, ?_⟩
  · intro hcnt
    unfold mgos_vfs_umount
    rw [hm]
    have hgt : inst.refs > 1 := by omega
    simp [hinst, hgt]
  · intro inst' hinst' hcnt0
    have hieq : inst' = inst := by
      rw [hinst] at hinst'
      exact (Option.some.injEq _ _ ▸ hinst').symm ▸ rfl
    subst hieq
    unfold mgos_vfs_umount
    rw [hm]
    have hle : ¬(inst'.refs > 1) := by omega
    simp [hinst', hle]
  · intro v fd hv hcnt1
    rw [close_state σ v b i fd hv]
    have hgi : getInst
        { σ with vfds := σ.vfds.set v none, instances := decRef σ.instances i } i =
        some { inst with refs := inst.refs - 1 } := by
      show ((decRef σ.instances i).get? i).bind id = _
      unfold decRef
      rw [hi', List.get?_set_eq_of_lt _ hilt]
      rfl
    have hle : ¬(1 < inst.refs - 1) := by omega
    unfold mgos_vfs_umount
    simp only [hm, hgi]
    simp [hle]
  · intro q hq
    unfold mgos_vfs_umount
    rw [hq]

/-- Witness for C1 at a concrete state: with vfd 0 open on `/mnt`, umount
fails; right after closing it, umount succeeds; umount of an absent path
fails. -/
theorem C1_umount_blocked_by_open_files_witness :
    mgos_vfs_umount openState "/mnt" true = (false, openState, []) ∧
    (mgos_vfs_umount (mgos_vfs_close openState 0 true).2.1 "/mnt" true).1 = true ∧
    mgos_vfs_umount openState "/nope" true = (false, openState, []) :=
  ⟨(C1_umount_blocked_by_open_files openState "/mnt" 0 true true (by decide)
      (by decide)).1 (by decide),
   (C1_umount_blocked_by_open_files openState "/mnt" 0 true true (by decide)
      (by decide)).2.2.1 0 5 (by decide) (by decide),
   (C1_umount_blocked_by_open_files openState "/mnt" 0 true true (by decide)
      (by decide)).2.2.2 "/nope" (by decide)⟩

/-- Number of live Filesystem Instances in the arena. -/
def liveInstances (σ : VfsState) : Nat :=
  (σ.instances.filterMap id).length

/-- Blanking an arena leaves nothing live. -/
theorem filterMap_id_map_none {α : Type} (l : List (Option α)) :
    (l.map (fun _ => (none : Option α))).filterMap id = [] := by
  induction l with
  | nil => rfl
  | cons o t ih =>
    rw [List.map_cons, List.filterMap_cons]
    exact ih

/-- C9: after `mgos_vfs_umount_all` the mount table is empty and zero live
Filesystem Instances remain, whatever vfds were open beforehand (the vfd
table is not even consulted) and whichever backends fail their unmount;
every entry has its backend unmount invoked regardless of other entries'
failures. -/
theorem C9_umount_all_total_teardown (σ : VfsState) (bad : List Nat) :
    (mgos_vfs_umount_all σ bad).1.mounts = [] ∧
    liveInstances (mgos_vfs_umount_all σ bad).1 = 0 ∧
    (mgos_vfs_umount_all σ bad).1.vfds = σ.vfds ∧
    ∀ e ∈ σ.mounts,
      BEvent.bUnmount e.2 (!(bad.contains e.2)) ∈ (mgos_vfs_umount_all σ bad).2 := by
  refine ⟨rfl, ?_, rfl, ?_⟩
  · show ((σ.instances.map (fun _ => none)).filterMap id).length = 0
    rw [filterMap_id_map_none]
    rfl
  · have hall : ∀ (ms : List (String × Nat)), ∀ e ∈ ms,
        BEvent.bUnmount e.2 (!(bad.contains e.2)) ∈
          ms.foldr
            (fun e acc =>
              BEvent.bUnmount e.2 (!(bad.contains e.2)) ::
              (match getInst σ e.2 with
               | some inst => [BEvent.devClose inst.dev]
               | none => []) ++ acc)
            [] := by
      intro ms
      induction ms with
      | nil => intro e he; simp at he
      | cons f t ih =>
        intro e he
        rw [List.foldr_cons]
        rcases List.mem_cons.mp he with he | he
        · subst he
          exact List.mem_cons_self _ _
        · exact List.mem_cons_of_mem _ (List.mem_append_right _ (ih e he))
    intro e he
    exact hall σ.mounts e he

/-- Witness for C9 at a concrete state with an open vfd and a failing
backend: the table still empties, no instance stays live, and the failing
backend's unmount was still invoked. -/
theorem C9_umount_all_total_teardown_witness :
    (mgos_vfs_umount_all openState [0]).1.mounts = [] ∧
    liveInstances (mgos_vfs_umount_all openState [0]).1 = 0 ∧
    BEvent.bUnmount 0 false ∈ (mgos_vfs_umount_all openState [0]).2 :=
  ⟨(C9_umount_all_total_teardown openState [0]).1,
   (C9_umount_all_total_teardown openState [0]).2.1,
   by
     have h := (C9_umount_all_total_teardown openState [0]).2.2.2 ("/mnt", 0)
       (by decide)
     simp at h
     exact h⟩

/-- Path conflicts are symmetric. -/
theorem pathConflict_symm (p q : String) : pathConflict p q = pathConflict q p := by
  unfold pathConflict
  exact Bool.or_comm _ _

/-- Type registration never touches the mount table. -/
theorem register_type_mounts (σ : VfsState) (t : String) :
    (mgos_vfs_fs_register_type σ t).2.mounts = σ.mounts := by
  unfold mgos_vfs_fs_register_type
  split <;> rfl

/-- `mkfs` never changes the switch state (the device is always closed). -/
theorem mkfs_state_eq (σ : VfsState) (ft : String) (a b : Bool) :
    (mgos_vfs_mkfs σ ft a b).2.1 = σ := by
  unfold mgos_vfs_mkfs
  split
  · rfl
  · split <;> rfl

/-- `gc` never changes the switch state. -/
theorem gc_state_eq (σ : VfsState) (p : String) (ok : Bool) :
    (mgos_vfs_gc σ p ok).2.1 = σ := by
  unfold mgos_vfs_gc
  rcases resolveMount σ p with _ | pr <;> rfl

/-- `stat` never changes the switch state. -/
theorem stat_state_eq (σ : VfsState) (p : String) (ok : Bool) :
    (mgos_vfs_stat σ p ok).2.1 = σ := by
  unfold mgos_vfs_stat
  rcases resolveMount σ p with _ | pr <;> rfl

/-- `unlink` never changes the switch state. -/
theorem unlink_state_eq (σ : VfsState) (p : String) (ok : Bool) :
    (mgos_vfs_unlink σ p ok).2.1 = σ := by
  unfold mgos_vfs_unlink
  rcases resolveMount σ p with _ | pr <;> rfl

/-- `opendir` never changes the switch state. -/
theorem opendir_state_eq (σ : VfsState) (p : String) (ok : Bool) :
    (mgos_vfs_opendir σ p ok).2.1 = σ := by
  unfold mgos_vfs_opendir
  rcases resolveMount σ p with _ | pr <;> rfl

/-- `rename` never changes the switch state. -/
theorem rename_state_eq (σ : VfsState) (s d : String) (ok : Bool) :
    (mgos_vfs_rename σ s d ok).2.1 = σ := by
  unfold mgos_vfs_rename
  split
  · split <;> rfl
  · rfl

/-- `open` never touches the mount table. -/
theorem open_mounts (σ : VfsState) (p : String) (fd : Option Int) :
    (mgos_vfs_open σ p fd).2.1.mounts = σ.mounts := by
  unfold mgos_vfs_open
  split
  · rfl
  · split
    · rfl
    · split <;> rfl

/-- `close` never touches the mount table. -/
theorem close_mounts (σ : VfsState) (v : Nat) (b : Bool) :
    (mgos_vfs_close σ v b).2.1.mounts = σ.mounts := by
  unfold mgos_vfs_close
  rcases getVfd σ v with _ | ⟨i, f⟩ <;> rfl

/-- All-quantified facts survive filtering. -/
theorem all_of_filter {α : Type} (p q : α → Bool) (l : List α)
    (h : l.all q = true) : (l.filter p).all q = true := by
  rw [List.all_eq_true] at h ⊢
  intro x hx
  exact h x (List.mem_of_mem_filter hx)

/-- Unfolding equation of `noConflicts` on a cons cell. -/
theorem noConflicts_cons (e : String × Nat) (t : List (String × Nat)) :
    noConflicts (e :: t) =
      ((t.all fun f => !(pathConflict e.1 f.1)) && noConflicts t) := rfl

/-- The flat-namespace property survives filtering the mount table. -/
theorem noConflicts_filter (l : List (String × Nat)) (q : String × Nat → Bool)
    (h : noConflicts l = true) : noConflicts (l.filter q) = true := by
  induction l with
  | nil => rfl
  | cons e t ih =>
    rw [noConflicts_cons, Bool.and_eq_true] at h
    rw [List.filter_cons]
    split
    · rw [noConflicts_cons, Bool.and_eq_true]
      exact ⟨all_of_filter _ _ _ h.1, ih h.2⟩
    · exact ih h.2

/-- Appending a conflict-free entry keeps the mount table conflict-free. -/
theorem noConflicts_append (l : List (String × Nat)) (p : String) (i : Nat)
    (hall : l.all (fun e => !(pathConflict p e.1)) = true)
    (h : noConflicts l = true) : noConflicts (l ++ [(p, i)]) = true := by
  induction l with
  | nil => rfl
  | cons e t ih =>
    rw [noConflicts_cons, Bool.and_eq_true] at h
    rw [List.all_cons, Bool.and_eq_true] at hall
    rw [List.cons_append, noConflicts_cons, Bool.and_eq_true]
    constructor
    · rw [List.all_append, Bool.and_eq_true]
      refine ⟨h.1, ?_⟩
      simp only [List.all_cons, List.all_nil, Bool.and_true]
      rw [pathConflict_symm]
      exact hall.1
    · exact ih hall.2 h.2

/-- The mount table after `mgos_vfs_mount`: either unchanged (any failure)
or extended by the new entry after the conflict check passed. -/
theorem mount_mounts_cases (σ : VfsState) (p ft : String) (dOk mOk : Bool) :
    (mgos_vfs_mount σ p ft dOk mOk).2.1.mounts = σ.mounts ∨
    ((mgos_vfs_mount σ p ft dOk mOk).2.1.mounts =
        σ.mounts ++ [(p, firstFree σ.instances)] ∧
      σ.mounts.any (fun e => pathConflict p e.1) = false) := by
  unfold mgos_vfs_mount
  split
  · exact Or.inl rfl
  · split
    · exact Or.inl rfl
    · next h2 =>
      split
      · exact Or.inl rfl
      · split
        · exact Or.inl rfl
        · split
          · exact Or.inl rfl
          · exact Or.inr ⟨rfl, Bool.eq_false_iff.mpr h2⟩

/-- The mount table after `mgos_vfs_umount`: unchanged or filtered. -/
theorem umount_mounts_cases (σ : VfsState) (p : String) (uOk : Bool) :
    (mgos_vfs_umount σ p uOk).2.1.mounts = σ.mounts ∨
    (mgos_vfs_umount σ p uOk).2.1.mounts =
      σ.mounts.filter (fun f => !(f.1 == p)) := by
  unfold mgos_vfs_umount
  split
  · exact Or.inl rfl
  · split
    · exact Or.inl rfl
    · split
      · exact Or.inl rfl
      · exact Or.inr rfl

/-- Modelled from the spec: one public facade call, with arbitrary
arguments and arbitrary device/backend outcomes. -/
inductive Step : VfsState → VfsState → Prop where
  | register (σ : VfsState) (t : String) :
      Step σ (mgos_vfs_fs_register_type σ t).2
  | mkfs (σ : VfsState) (ft : String) (dOk mkOk : Bool) :
      Step σ (mgos_vfs_mkfs σ ft dOk mkOk).2.1
  | mount (σ : VfsState) (p ft : String) (dOk mOk : Bool) :
      Step σ (mgos_vfs_mount σ p ft dOk mOk).2.1
  | umount (σ : VfsState) (p : String) (uOk : Bool) :
      Step σ (mgos_vfs_umount σ p uOk).2.1
  | umountAll (σ : VfsState) (bad : List Nat) :
      Step σ (mgos_vfs_umount_all σ bad).1
  | gc (σ : VfsState) (p : String) (ok : Bool) :
      Step σ (mgos_vfs_gc σ p ok).2.1
  | fopen (σ : VfsState) (p : String) (fd : Option Int) :
      Step σ (mgos_vfs_open σ p fd).2.1
  | fclose (σ : VfsState) (v : Nat) (ok : Bool) :
      Step σ (mgos_vfs_close σ v ok).2.1
  | fstat (σ : VfsState) (p : String) (ok : Bool) :
      Step σ (mgos_vfs_stat σ p ok).2.1
  | funlink (σ : VfsState) (p : String) (ok : Bool) :
      Step σ (mgos_vfs_unlink σ p ok).2.1
  | fopendir (σ : VfsState) (p : String) (ok : Bool) :
      Step σ (mgos_vfs_opendir σ p ok).2.1
  | frename (σ : VfsState) (s d : String) (ok : Bool) :
      Step σ (mgos_vfs_rename σ s d ok).2.1

/-- States reachable from the empty switch by facade calls. -/
inductive Reachable : VfsState → Prop where
  | init : Reachable initState
  | step {σ σ' : VfsState} : Reachable σ → Step σ σ' → Reachable σ'

/-- Every facade call preserves the flat-namespace property. -/
theorem step_preserves_noConflicts {σ σ' : VfsState} (hs : Step σ σ')
    (h : noConflicts σ.mounts = true) : noConflicts σ'.mounts = true := by
  cases hs with
  | register t => rw [register_type_mounts]; exact h
  | mkfs ft a b => rw [mkfs_state_eq]; exact h
  | mount p ft a b =>
    rcases mount_mounts_cases σ p ft a b with hc | ⟨hc, hno⟩
    · rw [hc]; exact h
    · rw [hc]
      refine noConflicts_append _ _ _ ?_ h
      rw [List.all_eq_true]
      intro e he
      rw [List.any_eq_false] at hno
      simpa using hno e he
  | umount p u =>
    rcases umount_mounts_cases σ p u with hc | hc
    · rw [hc]; exact h
    · rw [hc]; exact noConflicts_filter _ _ h
  | umountAll bad => rfl
  | gc p ok => rw [gc_state_eq]; exact h
  | fopen p fd => rw [open_mounts]; exact h
  | fclose v ok => rw [close_mounts]; exact h
  | fstat p ok => rw [stat_state_eq]; exact h
  | funlink p ok => rw [unlink_state_eq]; exact h
  | fopendir p ok => rw [opendir_state_eq]; exact h
  | frename s d ok => rw [rename_state_eq]; exact h

/-- Every reachable state satisfies the flat-namespace property. -/
theorem reachable_noConflicts {σ : VfsState} (h : Reachable σ) :
    noConflicts σ.mounts = true := by
  induction h with
  | init => rfl
  | step hr hs ih => exact step_preserves_noConflicts hs ih

/-- A conflict-free mount table is pairwise duplicate-free and strict-prefix
free. -/
theorem noConflicts_pairwise (l : List (String × Nat))
    (h : noConflicts l = true) :
    l.Pairwise (fun a b =>
      a.1 ≠ b.1 ∧ strictPre a.1 b.1 = false ∧ strictPre b.1 a.1 = false) := by
  induction l with
  | nil => exact List.Pairwise.nil
  | cons e t ih =>
    rw [noConflicts_cons, Bool.and_eq_true, List.all_eq_true] at h
    refine List.Pairwise.cons ?_ (ih h.2)
    intro b hb
    have hc := h.1 b hb
    have hfalse : pathConflict e.1 b.1 = false := by
      cases hpc : pathConflict e.1 b.1
      · rfl
      · rw [hpc] at hc; exact absurd hc (by decide)
    unfold pathConflict at hfalse
    rw [Bool.or_eq_false_iff] at hfalse
    refine ⟨?_, ?_, ?_⟩
    · intro heq
      rw [heq, strPre_refl] at hfalse
      exact Bool.noConfusion hfalse.1
    · unfold strictPre
      rw [hfalse.1]
      rfl
    · unfold strictPre
      rw [hfalse.2]
      rfl

/-- C2: in every reachable state of the switch no two mount table entries
share a path and no entry's path is a strict prefix of another's; and
`mgos_vfs_mount` rejects — with no state change — any path that stands in
a prefix relation (equality included, either direction) with an existing
mount's path, so the flat-namespace invariant is preserved by every
operation. -/
theorem C2_flat_namespace_invariant (σ : VfsState) (h : Reachable σ) :
    σ.mounts.Pairwise (fun a b =>
      a.1 ≠ b.1 ∧ strictPre a.1 b.1 = false ∧ strictPre b.1 a.1 = false) ∧
    (∀ p ft dOk mOk, σ.mounts.any (fun e => pathConflict p e.1) = true →
      mgos_vfs_mount σ p ft dOk mOk = (false, σ, [])) := by
  constructor
  · exact noConflicts_pairwise _ (reachable_noConflicts h)
  · intro p ft dOk mOk hany
    unfold mgos_vfs_mount
    cases h1 : validMountPath p with
    | false => simp [h1]
    | true => simp [h1, hany]

/-- The concrete two-mount scenario state is reachable from startup. -/
theorem twoMntState_reachable : Reachable twoMntState :=
  Reachable.step
    (Reachable.step
      (Reachable.step
        (Reachable.step Reachable.init (Step.register initState "spiffs"))
        (Step.register regState "fatfs"))
      (Step.mount reg2State "/mnt" "spiffs" true true))
    (Step.mount (mgos_vfs_mount reg2State "/mnt" "spiffs" true true).2.1
      "/other" "fatfs" true true)

/-- Witness for C2 at a concrete reachable state with two mounts: the
pairwise property holds and remounting `/mnt` is rejected unchanged. -/
theorem C2_flat_namespace_invariant_witness :
    twoMntState.mounts.Pairwise (fun a b =>
      a.1 ≠ b.1 ∧ strictPre a.1 b.1 = false ∧ strictPre b.1 a.1 = false) ∧
    mgos_vfs_mount twoMntState "/mnt" "spiffs" true true =
      (false, twoMntState, []) :=
  ⟨(C2_flat_namespace_invariant twoMntState twoMntState_reachable).1,
   (C2_flat_namespace_invariant twoMntState twoMntState_reachable).2
     "/mnt" "spiffs" true true (by decide)⟩
